import Mathlib

/-!
# Verification of the `data_transformation` batch ETL core

Shallow embedding of the repository under verification:

* `db_connector.py` — the storage layer wrapper (`DBConnector`): raw SQL
  execution with exception swallowing, and the validated upsert into
  `public.item_prices`.
* `csv_reader.py` — the batch ingestor (`CsvProcessor`): batch-file ordering,
  the watermark (`check_point`) gate, per-row upsert attempts, and the
  collection of `updated_at` calendar dates.
* `api_processor.py` — the rate normalizer (`APIProcessor`): rebasing an
  EUR-anchored historical rate set to NOK.

Modelling conventions:

* UTC timestamps are `Int` seconds since the Unix epoch; the watermark seed
  `datetime(1970, 1, 1, tzinfo=utc)` is `0`.  Calendar dates are `Int`
  day numbers obtained by floor division by 86400 (Lean division on `Int`
  is Euclidean, which for the positive divisor 86400 is floor division,
  matching the Python date computation).
* Decimal values (prices, rates) are exact rationals `Rat`, following the
  spec, which demands decimal semantics for the persisted numeric types.
* The storage layer is abstracted by an oracle assigning to each statement
  an `SqlOutcome`; exceptions are `Except` values, so a function that can
  raise returns `Except PyExc _` and a function that swallows exceptions
  is total in its result component.
-/

/-- Outcome of handing one SQL statement to the PostgreSQL driver:
it executes, raises a `psycopg2.Error`, or raises some other exception. -/
inductive SqlOutcome
  | success
  | pgError
  | otherExc
deriving DecidableEq

/-- A Python exception value, at the granularity the embedding needs.
`valueError` models the exception raised by `pandas.to_datetime` on a
malformed timestamp; `indexError` models `.iloc[0]` on an empty selection;
`generic` stands for any other exception. -/
inductive PyExc
  | valueError
  | indexError
  | generic
deriving DecidableEq

/-- `DBConnector._execute_query` (db_connector.py lines 66-78): runs the
statement inside `try: ... except Error as e: print(...)`, so a
`psycopg2.Error` is swallowed and merely logged, while any other exception
propagates to the caller. -/
def _execute_query (outcome : SqlOutcome) : Except PyExc Unit :=
  match outcome with
  | .success => Except.ok ()
  | .pgError => Except.ok ()
  | .otherExc => Except.error PyExc.generic

/-- The argument tuple of `DBConnector.upsert_record_item_prices`
(db_connector.py line 190), which is also one parsed CSV row of
`process_csvs`: columns `id, item, price, currency, created_at,
updated_at, system_timestamp`. -/
structure ItemPriceParams where
  id : String
  item : String
  price : Rat
  currency : String
  created_at : Int
  updated_at : Int
  system_timestamp : Int
deriving DecidableEq

/-- `DBConnector.upsert_record_item_prices` (db_connector.py lines 190-222).
Returns the Python return value (`some false` for the validation reject,
`none` otherwise) wrapped in `Except` to record whether the call raises,
paired with the list of SQL statements issued (identified by their
parameter tuple).  A currency code whose length is not 3 is rejected
before any SQL is issued; otherwise the statement is executed and both a
`psycopg2.Error` (already swallowed inside `_execute_query`) and any other
exception (`except Exception` in the upsert itself) are caught and only
logged. -/
def DBConnector.upsert_record_item_prices (outcome : SqlOutcome) (p : ItemPriceParams) :
    Except PyExc (Option Bool) × List ItemPriceParams :=
  if p.currency.length ≠ 3 then
    (Except.ok (some false), [])
  else
    match _execute_query outcome with
    | Except.ok _ => (Except.ok none, [p])
    | Except.error _ => (Except.ok none, [p])

theorem upsert_fst_ok (o : SqlOutcome) (p : ItemPriceParams) :
    ∃ v, (DBConnector.upsert_record_item_prices o p).fst = Except.ok v := by
  unfold DBConnector.upsert_record_item_prices
  split
  · exact ⟨some false, rfl⟩
  · cases o <;> exact ⟨none, rfl⟩

/-! ## csv_reader.py : parsing and date collection -/

/-- One row of a CSV batch file before timestamp conversion: the three
timestamp columns hold either a parsed value or `none` for a string that
`pandas.to_datetime` rejects. -/
structure RawRow where
  id : String
  item : String
  price : Rat
  currency : String
  created_at : Option Int
  updated_at : Option Int
  system_timestamp : Option Int
deriving DecidableEq

/-- One CSV batch file, as returned by `pandas.read_csv`. -/
structure RawFile where
  rows : List RawRow
deriving DecidableEq

/-- Timestamp conversion of one row.  In the source the conversion runs
column-wise over the whole file (csv_reader.py lines 63-65); it raises a
`ValueError` exactly when some row of the file holds a malformed
timestamp, which is what the row-wise `mapM` below reproduces. -/
def parseRow (r : RawRow) : Except PyExc ItemPriceParams :=
  match r.created_at, r.updated_at, r.system_timestamp with
  | some c, some u, some s => Except.ok ⟨r.id, r.item, r.price, r.currency, c, u, s⟩
  | _, _, _ => Except.error PyExc.valueError

/-- The three `pd.to_datetime` conversions of csv_reader.py lines 63-65
applied to a whole file. -/
def parseFile (f : RawFile) : Except PyExc (List ItemPriceParams) :=
  f.rows.mapM parseRow

/-- `.dt.date` on a UTC timestamp: the calendar day number, by floor
division (Euclidean division on `Int` with the positive divisor 86400). -/
def dateOfTs (t : Int) : Int := t / 86400

/-- `pandas.Series.unique`: the distinct values of a column in order of
first occurrence (csv_reader.py line 66). -/
def uniqueKeepFirst (l : List Int) : List Int :=
  l.foldl (fun acc x => if x ∈ acc then acc else acc ++ [x]) []

/-- `sorted(list(set(date_list)))` (csv_reader.py line 89): the distinct
values in ascending order.  `List.dedup` removes duplicates and
`List.mergeSort` sorts; the result is the unique duplicate-free ascending
enumeration, so it does not depend on how the Python set iterates. -/
def pySortedSet (l : List Int) : List Int :=
  l.dedup.mergeSort (fun a b => a ≤ b)

/-! ## csv_reader.py : the ingestion loop `process_csvs` -/

/-- The mutable state of one `process_csvs` run: the watermark
`self.check_point`, the accumulated `date_list`, and the trace of rows for
which `upsert_record_item_prices` was invoked (the storage calls). -/
structure RunState where
  check_point : Int
  date_list : List Int
  upsert_calls : List ItemPriceParams
deriving DecidableEq

/-- The body of the row loop (csv_reader.py lines 67-86): a row whose
`system_timestamp` exceeds the watermark is handed to
`upsert_record_item_prices` inside `try`, and on normal return the
watermark advances to the row timestamp; if the upsert raised, the
exception is logged and the watermark is left alone; any other row is
skipped. -/
def processRow (outcome : ItemPriceParams → SqlOutcome) (st : RunState)
    (r : ItemPriceParams) : RunState :=
  if st.check_point < r.system_timestamp then
    match (DBConnector.upsert_record_item_prices (outcome r) r).fst with
    | Except.ok _ =>
        { st with
          upsert_calls := st.upsert_calls ++ [r]
          check_point := r.system_timestamp }
    | Except.error _ =>
        { st with upsert_calls := st.upsert_calls ++ [r] }
  else st

/-- The body of the file loop for one already-parsed file: line 66 first
extends `date_list` with the distinct `updated_at` dates of the file, then
the row loop runs. -/
def processParsedFile (outcome : ItemPriceParams → SqlOutcome) (st : RunState)
    (rows : List ItemPriceParams) : RunState :=
  let st' := { st with
    date_list := st.date_list ++ uniqueKeepFirst (rows.map fun r => dateOfTs r.updated_at) }
  rows.foldl (processRow outcome) st'

/-- The result of `process_csvs`: the returned date list, together with the
final watermark and the storage-call trace of the run. -/
structure CsvRunResult where
  date_list : List Int
  check_point : Int
  upsert_calls : List ItemPriceParams
deriving DecidableEq

/-- `CsvProcessor.process_csvs` (csv_reader.py lines 47-90) over
already-parsed files, starting from watermark `cp0`: fold the file loop,
then return `sorted(list(set(date_list)))`. -/
def process_csvs (outcome : ItemPriceParams → SqlOutcome)
    (files : List (List ItemPriceParams)) (cp0 : Int) : CsvRunResult :=
  let st := files.foldl (processParsedFile outcome) ⟨cp0, [], []⟩
  ⟨pySortedSet st.date_list, st.check_point, st.upsert_calls⟩

/-- The file loop over raw files: each file is parsed (timestamp
conversion) as it is reached; a conversion failure raises out of
`process_csvs`, which has no handler around it. -/
def processRawFiles (outcome : ItemPriceParams → SqlOutcome) (st : RunState) :
    List RawFile → Except PyExc RunState
  | [] => Except.ok st
  | f :: fs =>
      match parseFile f with
      | Except.error e => Except.error e
      | Except.ok rows => processRawFiles outcome (processParsedFile outcome st rows) fs

/-- `CsvProcessor.process_csvs` over raw (unparsed) files: the run either
returns the date list as in `process_csvs`, or aborts with the exception
of the first file whose timestamp conversion fails. -/
def process_csvs_raw (outcome : ItemPriceParams → SqlOutcome)
    (files : List RawFile) (cp0 : Int) : Except PyExc CsvRunResult :=
  (processRawFiles outcome ⟨cp0, [], []⟩ files).map
    (fun st => ⟨pySortedSet st.date_list, st.check_point, st.upsert_calls⟩)

/-! ## csv_reader.py : batch ordering -/

/-- Numeric value of a digit run, most significant digit first. -/
def digitsVal (ds : List Char) : Nat :=
  ds.foldl (fun n c => 10 * n + (c.toNat - Char.toNat '0')) 0

/-- `CsvProcessor._get_batch_number` (csv_reader.py lines 19-30):
`re.search` with pattern digits-then-`.csv`-then-end.  In the Python
regex, the end anchor also matches just before one trailing newline, so a
single final newline is stripped first.  The leftmost-longest search match
captures the whole maximal digit run immediately preceding `.csv`.
Returns `none` where the source returns `float(inf)`. -/
def _get_batch_number (filename : String) : Option Nat :=
  let cs0 := filename.data
  let cs := if cs0.getLast? = some '\n' then cs0.dropLast else cs0
  if cs.drop (cs.length - 4) = ['.', 'c', 's', 'v'] ∧ 4 ≤ cs.length then
    let ds := ((cs.take (cs.length - 4)).reverse.takeWhile Char.isDigit).reverse
    if ds = [] then none else some (digitsVal ds)
  else none

/-- Ordering on sort keys: integers ascending, with `none` (the source
value `float(inf)`) after every integer. -/
def keyLE : Option Nat → Option Nat → Bool
  | some m, some n => m ≤ n
  | some _, none => true
  | none, some _ => false
  | none, none => true

/-- `CsvProcessor._order_csvs` (csv_reader.py lines 32-45) applied to a
directory listing: the Python builtin `sorted` with key
`_get_batch_number` is a stable sort with respect to the key order, here
modelled by the stable `List.mergeSort`. -/
def _order_csvs (csv_file_list : List String) : List String :=
  csv_file_list.mergeSort (fun a b => keyLE ( _get_batch_number a) ( _get_batch_number b))

/-! ## csv_reader.py : constructor -/

/-- The state `CsvProcessor.__init__` leaves behind. -/
structure CsvProcessorState where
  batch_data_dir : String
  check_point : Int
deriving DecidableEq

/-- `CsvProcessor.__init__` (csv_reader.py lines 9-17): the batch
directory is `os.path.join` of the module directory with the literal
`"../batch_data"`, and the watermark is seeded to the Unix epoch.  The
`related_batch_dir_to_script` parameter appears nowhere in the body. -/
def CsvProcessor.mk_init (script_dir : String)
    (related_batch_dir_to_script : String) : CsvProcessorState :=
  ⟨script_dir ++ "/" ++ "../batch_data", 0⟩

/-! ## Specification-side views of the run -/

/-- The watermark gate as a stream filter: the subsequence of rows whose
`system_timestamp` strictly exceeds the running watermark, which advances
to each such timestamp as it passes. -/
def wmFilter (cp : Int) : List ItemPriceParams → List ItemPriceParams
  | [] => []
  | r :: rs =>
      if cp < r.system_timestamp then r :: wmFilter r.system_timestamp rs
      else wmFilter cp rs

/-- The running maximum of `cp` and the `system_timestamp` values of a row
stream. -/
def runMax (cp : Int) (rows : List ItemPriceParams) : Int :=
  rows.foldl (fun c r => max c r.system_timestamp) cp

/-- Among the storage calls of a run, the rows actually applied to the
price store: the currency passed validation and the statement executed
without a driver error. -/
def appliedRows (outcome : ItemPriceParams → SqlOutcome)
    (calls : List ItemPriceParams) : List ItemPriceParams :=
  calls.filter (fun r => r.currency.length == 3 && outcome r == SqlOutcome.success)

/-! ## api_processor.py : rebasing historical rates to NOK -/

/-- One row of the dataframe produced by `APIProcessor.process_hist_rates`:
an EUR-anchored rate record with columns `currency_code, rate_EUR, date`.
Duplicate currency codes have already been dropped keep-last, so a rate
set handed to the rebase step has pairwise distinct codes. -/
structure HistRateRecord where
  currency_code : String
  rate_EUR : Rat
  date : String
deriving DecidableEq

/-- One row of the dataframe returned by
`APIProcessor.process_hist_rate_NOK`: columns `target_currency_code, date,
base_currency_code, rate`. -/
structure NokRateRecord where
  target_currency_code : String
  date : String
  base_currency_code : String
  rate : Rat
deriving DecidableEq

/-- The rebase step of `APIProcessor.process_hist_rate_NOK`
(api_processor.py lines 137-153) on the EUR-anchored rate set: the pivot
is the first record whose code is NOK, read with `.iloc[0]`; when the
selection is empty that read raises an `IndexError` — the failure the
spec names MissingPivotError.  Otherwise every rate is divided by the
pivot rate, the base currency column is set to NOK, the EUR-anchored rate
column is dropped, and the code column is renamed to the target code. -/
def process_hist_rate_NOK (df : List HistRateRecord) :
    Except PyExc (List NokRateRecord) :=
  match df.find? (fun r => r.currency_code == "NOK") with
  | none => Except.error PyExc.indexError
  | some p =>
      Except.ok (df.map fun r => ⟨r.currency_code, r.date, "NOK", r.rate_EUR / p.rate_EUR⟩)

/-! ## List lemmas : stability of a stable sort, sorted duplicate-free lists -/

theorem mem_foldl_uniqueStep {l : List Int} {acc : List Int} {x : Int} :
    x ∈ l.foldl (fun acc x => if x ∈ acc then acc else acc ++ [x]) acc ↔
      x ∈ acc ∨ x ∈ l := by
  induction l generalizing acc with
  | nil => simp
  | cons y ys ih =>
      simp only [List.foldl_cons, ih, List.mem_cons]
      by_cases hy : y ∈ acc
      · simp only [if_pos hy]
        constructor
        · rintro (h | h)
          · exact Or.inl h
          · exact Or.inr (Or.inr h)
        · rintro (h | h | h)
          · exact Or.inl h
          · exact Or.inl (h ▸ hy)
          · exact Or.inr h
      · simp only [if_neg hy, List.mem_append, List.mem_singleton]
        tauto

theorem mem_uniqueKeepFirst {l : List Int} {x : Int} :
    x ∈ uniqueKeepFirst l ↔ x ∈ l := by
  unfold uniqueKeepFirst
  rw [mem_foldl_uniqueStep]
  simp

theorem pySortedSet_sorted (l : List Int) : (pySortedSet l).Pairwise (· ≤ ·) := by
  have htrans : ∀ a b c : Int, decide (a ≤ b) = true → decide (b ≤ c) = true →
      decide (a ≤ c) = true := by
    intro a b c h1 h2
    simp only [decide_eq_true_eq] at h1 h2 ⊢
    omega
  have htotal : ∀ a b : Int, (decide (a ≤ b) || decide (b ≤ a)) = true := by
    intro a b
    simp only [Bool.or_eq_true, decide_eq_true_eq]
    omega
  have h := List.sorted_mergeSort htrans htotal l.dedup
  exact h.imp (fun hab => of_decide_eq_true hab)

theorem pySortedSet_nodup (l : List Int) : (pySortedSet l).Nodup :=
  (List.mergeSort_perm l.dedup _).nodup_iff.mpr l.nodup_dedup

theorem mem_pySortedSet {l : List Int} {x : Int} :
    x ∈ pySortedSet l ↔ x ∈ l := by
  unfold pySortedSet
  rw [List.mem_mergeSort, List.mem_dedup]

/-- Two runs of `sorted(list(set(-)))` agree as soon as the inputs hold
the same values. -/
theorem pySortedSet_congr {l l' : List Int} (h : ∀ x, x ∈ l ↔ x ∈ l') :
    pySortedSet l = pySortedSet l' := by
  apply List.eq_of_perm_of_sorted ?_ (pySortedSet_sorted l) (pySortedSet_sorted l')
  rw [List.perm_ext_iff_of_nodup (pySortedSet_nodup l) (pySortedSet_nodup l')]
  intro a
  rw [mem_pySortedSet, mem_pySortedSet]
  exact h a

/-- Filter-stability of `List.mergeSort`: elements that agree on a
predicate that forces mutual comparability keep exactly their original
relative order. -/
theorem filter_mergeSort_stable {α : Type} (le : α → α → Bool)
    (htrans : ∀ a b c, le a b → le b c → le a c)
    (htotal : ∀ a b, le a b || le b a)
    (p : α → Bool) (hp : ∀ a b, p a → p b → le a b) (l : List α) :
    (l.mergeSort le).filter p = l.filter p := by
  have hpair : (l.filter p).Pairwise (fun a b => le a b) := by
    rw [List.pairwise_iff_forall_sublist]
    intro a b hab
    have ha : a ∈ l.filter p := hab.subset (by simp)
    have hb : b ∈ l.filter p := hab.subset (by simp)
    exact hp a b (List.of_mem_filter ha) (List.of_mem_filter hb)
  have hsub : List.Sublist (l.filter p) (l.mergeSort le) :=
    List.sublist_mergeSort htrans htotal hpair (List.filter_sublist l)
  have hsub' : List.Sublist (l.filter p) ((l.mergeSort le).filter p) := by
    have := hsub.filter p
    rwa [List.filter_eq_self.mpr (fun a ha => List.of_mem_filter ha)] at this
  have hlen : (l.filter p).length = ((l.mergeSort le).filter p).length :=
    (((List.mergeSort_perm l le).filter p).length_eq).symm
  exact (hsub'.eq_of_length hlen).symm

/-! ## Run lemmas : the watermark, the call trace and the date list -/

/-- Because `upsert_record_item_prices` returns normally on every input,
the exception branch of the row loop is dead: a row past the watermark
always records a storage call and always advances the watermark. -/
theorem processRow_eq (o : ItemPriceParams → SqlOutcome) (st : RunState)
    (r : ItemPriceParams) :
    processRow o st r =
      if st.check_point < r.system_timestamp then
        { st with
          upsert_calls := st.upsert_calls ++ [r]
          check_point := r.system_timestamp }
      else st := by
  unfold processRow
  split
  · obtain ⟨v, hv⟩ := upsert_fst_ok (o r) r
    rw [hv]
  · rfl

theorem runMax_cons (cp : Int) (r : ItemPriceParams) (rs : List ItemPriceParams) :
    runMax cp (r :: rs) = runMax (max cp r.system_timestamp) rs := rfl

theorem runMax_append (cp : Int) (a b : List ItemPriceParams) :
    runMax cp (a ++ b) = runMax (runMax cp a) b := by
  unfold runMax
  rw [List.foldl_append]

theorem le_runMax (cp : Int) (rows : List ItemPriceParams) : cp ≤ runMax cp rows := by
  induction rows generalizing cp with
  | nil => exact le_refl cp
  | cons r rs ih =>
      rw [runMax_cons]
      exact le_trans (le_max_left _ _) (ih _)

theorem ts_le_runMax {cp : Int} {rows : List ItemPriceParams} {r : ItemPriceParams}
    (h : r ∈ rows) : r.system_timestamp ≤ runMax cp rows := by
  induction rows generalizing cp with
  | nil => cases h
  | cons x xs ih =>
      rw [runMax_cons]
      rcases List.mem_cons.mp h with h | h
      · exact le_trans (h ▸ le_max_right cp x.system_timestamp) (le_runMax _ _)
      · exact ih h

theorem runMax_eq_of_le {cp : Int} {rows : List ItemPriceParams}
    (h : ∀ r ∈ rows, r.system_timestamp ≤ cp) : runMax cp rows = cp := by
  induction rows with
  | nil => rfl
  | cons x xs ih =>
      rw [runMax_cons, max_eq_left (h x (List.mem_cons_self x xs))]
      exact ih (fun r hr => h r (List.mem_cons_of_mem x hr))

theorem wmFilter_cons (cp : Int) (x : ItemPriceParams) (xs : List ItemPriceParams) :
    wmFilter cp (x :: xs) =
      if cp < x.system_timestamp then x :: wmFilter x.system_timestamp xs
      else wmFilter cp xs := rfl

theorem wmFilter_nil_of_le {cp : Int} {rows : List ItemPriceParams}
    (h : ∀ r ∈ rows, r.system_timestamp ≤ cp) : wmFilter cp rows = [] := by
  induction rows with
  | nil => rfl
  | cons x xs ih =>
      rw [wmFilter_cons, if_neg (not_lt.mpr (h x (List.mem_cons_self x xs)))]
      exact ih (fun r hr => h r (List.mem_cons_of_mem x hr))

theorem mem_wmFilter_gt {cp : Int} {rows : List ItemPriceParams} {r : ItemPriceParams}
    (h : r ∈ wmFilter cp rows) : cp < r.system_timestamp := by
  induction rows generalizing cp with
  | nil => cases h
  | cons x xs ih =>
      rw [wmFilter_cons] at h
      by_cases hx : cp < x.system_timestamp
      · rw [if_pos hx] at h
        rcases List.mem_cons.mp h with h | h
        · exact h ▸ hx
        · exact lt_trans hx (ih h)
      · rw [if_neg hx] at h
        exact ih h

theorem wmFilter_append (cp : Int) (a b : List ItemPriceParams) :
    wmFilter cp (a ++ b) = wmFilter cp a ++ wmFilter (runMax cp a) b := by
  induction a generalizing cp with
  | nil => simp [wmFilter, runMax]
  | cons x xs ih =>
      rw [List.cons_append, wmFilter_cons, wmFilter_cons, runMax_cons]
      by_cases hx : cp < x.system_timestamp
      · rw [if_pos hx, if_pos hx, max_eq_right (le_of_lt hx), ih, List.cons_append]
      · rw [if_neg hx, if_neg hx, max_eq_left (not_lt.mp hx), ih]

/-- The row loop leaves the date list alone, advances the watermark to
the running maximum, and appends exactly the watermark-passing rows to
the call trace. -/
theorem foldl_processRow_spec (o : ItemPriceParams → SqlOutcome)
    (rows : List ItemPriceParams) (st : RunState) :
    rows.foldl (processRow o) st =
      ⟨runMax st.check_point rows, st.date_list,
        st.upsert_calls ++ wmFilter st.check_point rows⟩ := by
  induction rows generalizing st with
  | nil => simp [runMax, wmFilter]
  | cons r rs ih =>
      rw [List.foldl_cons, processRow_eq, wmFilter_cons, runMax_cons]
      by_cases hr : st.check_point < r.system_timestamp
      · rw [if_pos hr, if_pos hr, ih]
        simp [max_eq_right (le_of_lt hr)]
      · rw [if_neg hr, if_neg hr, ih]
        simp [max_eq_left (not_lt.mp hr)]

theorem processParsedFile_spec (o : ItemPriceParams → SqlOutcome) (st : RunState)
    (rows : List ItemPriceParams) :
    processParsedFile o st rows =
      ⟨runMax st.check_point rows,
        st.date_list ++ uniqueKeepFirst (rows.map fun r => dateOfTs r.updated_at),
        st.upsert_calls ++ wmFilter st.check_point rows⟩ := by
  unfold processParsedFile
  rw [foldl_processRow_spec]

/-- The file loop: watermark, date blocks and call trace after a list of
parsed files. -/
theorem foldl_processParsedFile_spec (o : ItemPriceParams → SqlOutcome)
    (files : List (List ItemPriceParams)) (st : RunState) :
    files.foldl (processParsedFile o) st =
      ⟨runMax st.check_point files.flatten,
        st.date_list ++
          (files.map fun rows => uniqueKeepFirst (rows.map fun r => dateOfTs r.updated_at)).flatten,
        st.upsert_calls ++ wmFilter st.check_point files.flatten⟩ := by
  induction files generalizing st with
  | nil => simp [runMax, wmFilter]
  | cons f fs ih =>
      rw [List.foldl_cons, processParsedFile_spec, ih]
      simp only [List.flatten_cons, runMax_append, wmFilter_append, List.map_cons,
        List.append_assoc]

/-- Closed form of a `process_csvs` run: the returned list is the sorted
deduplicated `updated_at` dates of every observed row, the final
watermark is the running maximum of the seed and every
`system_timestamp`, and the storage calls are exactly the
watermark-passing rows. -/
theorem process_csvs_eq (o : ItemPriceParams → SqlOutcome)
    (files : List (List ItemPriceParams)) (cp0 : Int) :
    process_csvs o files cp0 =
      ⟨pySortedSet (files.flatten.map fun r => dateOfTs r.updated_at),
        runMax cp0 files.flatten,
        wmFilter cp0 files.flatten⟩ := by
  simp only [process_csvs, foldl_processParsedFile_spec, List.nil_append]
  congr 1
  apply pySortedSet_congr
  intro x
  constructor
  · intro hx
    rcases List.mem_flatten.mp hx with ⟨l, hl, hxl⟩
    rcases List.mem_map.mp hl with ⟨rows, hrows, rfl⟩
    rcases List.mem_map.mp (mem_uniqueKeepFirst.mp hxl) with ⟨r, hr, rfl⟩
    exact List.mem_map_of_mem _ (List.mem_flatten.mpr ⟨rows, hrows, hr⟩)
  · intro hx
    rcases List.mem_map.mp hx with ⟨r, hr, rfl⟩
    rcases List.mem_flatten.mp hr with ⟨rows, hrows, hrr⟩
    exact List.mem_flatten.mpr ⟨_, List.mem_map_of_mem _ hrows,
      mem_uniqueKeepFirst.mpr (List.mem_map_of_mem _ hrr)⟩

/-- The run state reached by `process_csvs` does not depend on the storage
outcomes: `upsert_record_item_prices` returns normally whatever happens,
its return value is discarded, and the watermark advance follows
unconditionally. -/
theorem processRawFiles_outcome_indep (o o' : ItemPriceParams → SqlOutcome)
    (files : List RawFile) (st : RunState) :
    processRawFiles o st files = processRawFiles o' st files := by
  induction files generalizing st with
  | nil => rfl
  | cons f fs ih =>
      unfold processRawFiles
      cases hf : parseFile f with
      | error e => rfl
      | ok rows =>
          dsimp only
          rw [processParsedFile_spec, ← processParsedFile_spec o' st rows]
          exact ih _

/-- A row with a malformed timestamp fails the conversion of its row. -/
theorem parseRow_error_of_bad_ts {r : RawRow} (hts : r.system_timestamp = none) :
    parseRow r = Except.error PyExc.valueError := by
  obtain ⟨id, item, price, currency, c, u, s⟩ := r
  cases hts
  cases c <;> cases u <;> rfl

/-- A file containing a row with a malformed timestamp fails to parse. -/
theorem mapM_parseRow_error {l : List RawRow} {r : RawRow}
    (hr : r ∈ l) (hts : r.system_timestamp = none) :
    ∃ e, l.mapM parseRow = Except.error e := by
  induction l with
  | nil => cases hr
  | cons x xs ih =>
      rw [List.mapM_cons]
      rcases List.mem_cons.mp hr with h | h
      · have hx : parseRow x = Except.error PyExc.valueError :=
          parseRow_error_of_bad_ts (h ▸ hts)
        refine ⟨PyExc.valueError, ?_⟩
        rw [hx]
        rfl
      · cases hx : parseRow x with
        | error e => exact ⟨e, rfl⟩
        | ok row =>
            obtain ⟨e, he⟩ := ih h
            refine ⟨e, ?_⟩
            simp only [he]
            rfl

/-- A malformed timestamp anywhere in the batch aborts the file loop with
an exception: the loop has no handler around the per-file conversion. -/
theorem processRawFiles_error_of_bad (o : ItemPriceParams → SqlOutcome)
    {files : List RawFile} {f : RawFile} {r : RawRow} (st : RunState)
    (hf : f ∈ files) (hr : r ∈ f.rows) (hts : r.system_timestamp = none) :
    ∃ e, processRawFiles o st files = Except.error e := by
  induction files generalizing st with
  | nil => cases hf
  | cons g gs ih =>
      unfold processRawFiles
      rcases List.mem_cons.mp hf with h | h
      · obtain ⟨e, he⟩ := mapM_parseRow_error (h ▸ hr) hts
        have : parseFile g = Except.error e := he
        rw [this]
        exact ⟨e, rfl⟩
      · cases hg : parseFile g with
        | error e => exact ⟨e, rfl⟩
        | ok rows =>
            dsimp only
            exact ih _ h


/-! ## Lemmas on the batch-order key -/

theorem keyLE_refl (x : Option Nat) : keyLE x x = true := by
  cases x <;> simp [keyLE]

theorem keyLE_trans (x y z : Option Nat) (h1 : keyLE x y = true)
    (h2 : keyLE y z = true) : keyLE x z = true := by
  cases x <;> cases y <;> cases z <;> simp_all [keyLE] <;> omega

theorem keyLE_total (x y : Option Nat) : (keyLE x y || keyLE y x) = true := by
  cases x <;> cases y <;> simp [keyLE] <;> omega

/-! ## Concrete data used by counterexamples and witnesses -/

/-- A storage oracle under which every issued statement succeeds. -/
def allSuccess : ItemPriceParams → SqlOutcome := fun _ => SqlOutcome.success

/-- A parsed row whose currency code has two characters, so the upsert
rejects it before issuing SQL; its `system_timestamp` is 5. -/
def rowBadCurrency : ItemPriceParams := ⟨"id1", "apple", 10, "US", 0, 0, 5⟩

/-- A well-formed parsed row: valid currency, `system_timestamp` 7,
`updated_at` inside day number 1. -/
def rowOk : ItemPriceParams := ⟨"id2", "pear", 20, "USD", 86400, 86400, 7⟩

/-- A raw row whose `system_timestamp` string is malformed. -/
def rawRowBadTs : RawRow := ⟨"id1", "apple", 10, "USD", some 0, some 0, none⟩

/-- A raw row that parses. -/
def rawRowGood : RawRow := ⟨"id2", "pear", 20, "USD", some 10, some 10, some 10⟩

/-- An EUR-anchored rate set with no NOK entry. -/
def histDfUsd : List HistRateRecord := [⟨"USD", 1, "2023-03-01"⟩]

/-- An EUR-anchored rate set with a NOK entry of rate 10. -/
def histDfEx : List HistRateRecord :=
  [⟨"USD", 27/25, "2023-03-01"⟩, ⟨"EUR", 1, "2023-03-01"⟩, ⟨"NOK", 10, "2023-03-01"⟩]

/-- The NOK pivot record of `histDfEx`. -/
def nokPivotEx : HistRateRecord := ⟨"NOK", 10, "2023-03-01"⟩

/-! ## The claims -/

/-- **C1, counterexample.**  The claim says the watermark equals the
maximum `system_timestamp` among the rows successfully applied to the
price store, staying at its seed when no row has been applied, and that a
failed upsert does not advance it.  Processing the single row
`rowBadCurrency` (currency two characters, timestamp 5) from seed 0, the
upsert rejects the row — no row is ever applied — yet the watermark ends
at 5, not at the seed 0: `process_csvs` ignores the return value of
`upsert_record_item_prices`, which swallows every failure. -/
theorem C1_watermark_counterexample :
    (process_csvs allSuccess [[rowBadCurrency]] 0).check_point = 5 ∧
    appliedRows allSuccess (process_csvs allSuccess [[rowBadCurrency]] 0).upsert_calls = [] ∧
    (5 : Int) ≠ 0 := by
  refine ⟨rfl, rfl, by decide⟩

/-- **C1, amended.**  Throughout an ingestion run of `process_csvs` the
watermark is monotonically non-decreasing, and at every point equals the
maximum of its seed and the `system_timestamp` values of all rows
observed so far — regardless of upsert success, because
`upsert_record_item_prices` returns normally on every input and the
watermark advance follows unconditionally; only a raised exception would
leave it behind, and none can occur. -/
theorem C1_watermark_amended (o : ItemPriceParams → SqlOutcome)
    (files extra : List (List ItemPriceParams)) (cp0 : Int) (st : RunState)
    (rows : List ItemPriceParams) :
    (rows.foldl (processRow o) st).check_point = runMax st.check_point rows ∧
    (process_csvs o files cp0).check_point = runMax cp0 files.flatten ∧
    cp0 ≤ (process_csvs o files cp0).check_point ∧
    (process_csvs o files cp0).check_point ≤
      (process_csvs o (files ++ extra) cp0).check_point := by
  refine ⟨?_, ?_, ?_, ?_⟩
  · rw [foldl_processRow_spec]
  · rw [process_csvs_eq]
  · rw [process_csvs_eq]
    exact le_runMax cp0 files.flatten
  · rw [process_csvs_eq, process_csvs_eq, List.flatten_append, runMax_append]
    exact le_runMax _ extra.flatten

/-- **C2, counterexample.**  The claim says a malformed timestamp in a
single row does not abort processing of subsequent rows or files.  With
two batch files — the first holding one row with a malformed
`system_timestamp`, the second a well-formed row — the run raises out of
`process_csvs` while converting the first file: nothing is returned and
the second file is never processed, because the `pd.to_datetime`
conversions run outside the per-row `try` block. -/
theorem C2_row_isolation_counterexample :
    process_csvs_raw allSuccess [⟨[rawRowBadTs]⟩, ⟨[rawRowGood]⟩] 0 =
      Except.error PyExc.valueError := rfl

/-- **C2, amended.**  A storage-layer exception raised while upserting a
single row does not abort processing of subsequent rows or files — it is
caught inside `upsert_record_item_prices` / `_execute_query`, and the run
result is identical under every storage oracle, hence to a failure-free
run.  A malformed timestamp, however, aborts the entire run with an
exception: timestamp conversion is per file and outside the per-row
`try`. -/
theorem C2_row_isolation_amended (o o' : ItemPriceParams → SqlOutcome)
    (files : List RawFile) (cp0 : Int) :
    process_csvs_raw o files cp0 = process_csvs_raw o' files cp0 ∧
    (∀ f ∈ files, ∀ r ∈ f.rows, r.system_timestamp = none →
      ∃ e, process_csvs_raw o files cp0 = Except.error e) := by
  constructor
  · unfold process_csvs_raw
    rw [processRawFiles_outcome_indep o o']
  · intro f hf r hr hts
    obtain ⟨e, he⟩ := processRawFiles_error_of_bad o (⟨cp0, [], []⟩ : RunState) hf hr hts
    refine ⟨e, ?_⟩
    unfold process_csvs_raw
    rw [he]
    rfl

/-- Witness for the amended C2: on a batch holding one malformed row, the
run aborts with an exception. -/
theorem C2_row_isolation_amended_witness :
    ∃ e, process_csvs_raw allSuccess [⟨[rawRowBadTs]⟩] 0 = Except.error e :=
  (C2_row_isolation_amended allSuccess allSuccess [⟨[rawRowBadTs]⟩] 0).2
    ⟨[rawRowBadTs]⟩ (by decide) rawRowBadTs (by decide) rfl

/-- **C3.**  For every list of file names, `_order_csvs` returns a
permutation of the input, sorted ascending by the batch-number key — the
integer formed by the digits immediately preceding `.csv` at the end of
the name, with keyless names after all keyed ones — and, for every key,
the names with that key keep their original relative order (stability,
which covers ties and the unmatched group). -/
theorem nameLE_trans (a b c : String)
    (h1 : keyLE ( _get_batch_number a) ( _get_batch_number b) = true)
    (h2 : keyLE ( _get_batch_number b) ( _get_batch_number c) = true) :
    keyLE ( _get_batch_number a) ( _get_batch_number c) = true :=
  keyLE_trans _ _ _ h1 h2

theorem nameLE_total (a b : String) :
    (keyLE ( _get_batch_number a) ( _get_batch_number b) ||
      keyLE ( _get_batch_number b) ( _get_batch_number a)) = true :=
  keyLE_total _ _

theorem C3_order_csvs (l : List String) :
    (_order_csvs l).Perm l ∧
    (_order_csvs l).Pairwise
      (fun a b => keyLE ( _get_batch_number a) ( _get_batch_number b) = true) ∧
    (∀ k : Option Nat,
      (_order_csvs l).filter (fun x => _get_batch_number x == k) =
        l.filter (fun x => _get_batch_number x == k)) := by
  unfold _order_csvs
  refine ⟨List.mergeSort_perm l _, ?_, ?_⟩
  · exact List.sorted_mergeSort nameLE_trans nameLE_total l
  · intro k
    apply filter_mergeSort_stable _ nameLE_trans nameLE_total
    intro a b ha hb
    have ha' : _get_batch_number a = k := by simpa using ha
    have hb' : _get_batch_number b = k := by simpa using hb
    rw [ha', hb']
    exact keyLE_refl k

/-- **C4.**  For every batch file set, storage oracle and watermark seed:
the storage calls are exactly the watermark-passing rows, so every call
has `system_timestamp` above the watermark it was compared against (in
particular above the seed) and a row at or below the watermark triggers
none; yet the returned list is exactly the deduplicated ascending
`updated_at` dates of all observed rows, applied or skipped alike, so
every observed row contributes its date. -/
theorem C4_dates_and_skip (o : ItemPriceParams → SqlOutcome)
    (files : List (List ItemPriceParams)) (cp0 : Int) :
    (process_csvs o files cp0).upsert_calls = wmFilter cp0 files.flatten ∧
    (∀ r ∈ (process_csvs o files cp0).upsert_calls, cp0 < r.system_timestamp) ∧
    (process_csvs o files cp0).date_list =
      pySortedSet (files.flatten.map fun r => dateOfTs r.updated_at) ∧
    (∀ r ∈ files.flatten, dateOfTs r.updated_at ∈ (process_csvs o files cp0).date_list) := by
  rw [process_csvs_eq]
  refine ⟨rfl, ?_, rfl, ?_⟩
  · intro r hr
    exact mem_wmFilter_gt hr
  · intro r hr
    rw [mem_pySortedSet]
    exact List.mem_map_of_mem _ hr

/-- Witness for C4: concretely, `rowOk` is called (its timestamp exceeds
the seed) and its date is in the returned list. -/
theorem C4_dates_and_skip_witness :
    (0 : Int) < rowOk.system_timestamp ∧
    dateOfTs rowOk.updated_at ∈ (process_csvs allSuccess [[rowOk]] 0).date_list :=
  ⟨(C4_dates_and_skip allSuccess [[rowOk]] 0).2.1 rowOk (by decide),
   (C4_dates_and_skip allSuccess [[rowOk]] 0).2.2.2 rowOk (by decide)⟩

/-- **C5.**  When the EUR-anchored rate set contains no entry for the new
base currency NOK, `process_hist_rate_NOK` fails: the `.iloc[0]` read of
the pivot raises (the spec calls this failure MissingPivotError).  The
function is pure apart from this raised error, so the failure is fatal
only to that rebase operation. -/
theorem C5_missing_pivot (df : List HistRateRecord)
    (h : ∀ r ∈ df, r.currency_code ≠ "NOK") :
    process_hist_rate_NOK df = Except.error PyExc.indexError := by
  have hnone : df.find? (fun r => r.currency_code == "NOK") = none :=
    List.find?_eq_none.mpr (fun r hr => by simpa using h r hr)
  unfold process_hist_rate_NOK
  rw [hnone]

/-- Witness for C5: a rate set holding only USD has no pivot, and the
rebase fails. -/
theorem C5_missing_pivot_witness :
    process_hist_rate_NOK histDfUsd = Except.error PyExc.indexError :=
  C5_missing_pivot histDfUsd (by decide)

/-- **C6.**  On an EUR-anchored rate set with pairwise distinct currency
codes (as produced by the keep-last deduplication of
`process_hist_rates`) containing a NOK entry with nonzero rate, the
rebase divides every rate by the pivot rate and relabels the base
currency to NOK; the output record whose target currency is NOK itself
carries rate exactly 1. -/
theorem C6_rebase_self_unit (df : List HistRateRecord) (p : HistRateRecord)
    (hfind : df.find? (fun r => r.currency_code == "NOK") = some p)
    (hrate : p.rate_EUR ≠ 0)
    (hnodup : (df.map fun r => r.currency_code).Nodup) :
    process_hist_rate_NOK df =
      Except.ok (df.map fun r =>
        ⟨r.currency_code, r.date, "NOK", r.rate_EUR / p.rate_EUR⟩) ∧
    ∀ q ∈ (df.map fun r =>
        (⟨r.currency_code, r.date, "NOK", r.rate_EUR / p.rate_EUR⟩ : NokRateRecord)),
      q.target_currency_code = "NOK" → q.rate = 1 := by
  constructor
  · unfold process_hist_rate_NOK
    rw [hfind]
  · rintro q hq hqt
    rcases List.mem_map.mp hq with ⟨r, hr, rfl⟩
    have hrc : r.currency_code = "NOK" := hqt
    have hpmem : p ∈ df := List.mem_of_find?_eq_some hfind
    have hpcode : p.currency_code = "NOK" := by
      simpa using List.find?_some hfind
    have hrp : r = p :=
      List.inj_on_of_nodup_map hnodup hr hpmem (hrc.trans hpcode.symm)
    show r.rate_EUR / p.rate_EUR = 1
    rw [hrp]
    exact div_self hrate

/-- Witness for C6: on the concrete rate set `histDfEx` the rebase
succeeds and the NOK output record has rate 1. -/
theorem C6_rebase_self_unit_witness :
    process_hist_rate_NOK histDfEx =
      Except.ok (histDfEx.map fun r =>
        ⟨r.currency_code, r.date, "NOK", r.rate_EUR / nokPivotEx.rate_EUR⟩) ∧
    (⟨"NOK", "2023-03-01", "NOK",
      nokPivotEx.rate_EUR / nokPivotEx.rate_EUR⟩ : NokRateRecord).rate = 1 :=
  ⟨(C6_rebase_self_unit histDfEx nokPivotEx (by decide) (by decide) (by decide)).1,
   (C6_rebase_self_unit histDfEx nokPivotEx (by decide) (by decide) (by decide)).2
     ⟨"NOK", "2023-03-01", "NOK", nokPivotEx.rate_EUR / nokPivotEx.rate_EUR⟩
     (List.mem_map_of_mem _ (by decide : nokPivotEx ∈ histDfEx)) rfl⟩

/-- **C7.**  Re-running `process_csvs` over the same batch files from the
watermark left by the first run issues no storage call — every
`system_timestamp` is now at or below the watermark — and still returns
the same full date list (and leaves the watermark where it was).  The
second run may even face a different storage oracle. -/
theorem C7_idempotent_rerun (o o' : ItemPriceParams → SqlOutcome)
    (files : List (List ItemPriceParams)) (cp0 : Int) :
    (process_csvs o' files (process_csvs o files cp0).check_point).upsert_calls = [] ∧
    (process_csvs o' files (process_csvs o files cp0).check_point).date_list =
      (process_csvs o files cp0).date_list ∧
    (process_csvs o' files (process_csvs o files cp0).check_point).check_point =
      (process_csvs o files cp0).check_point := by
  simp only [process_csvs_eq]
  refine ⟨?_, trivial, ?_⟩
  · exact wmFilter_nil_of_le (fun r hr => ts_le_runMax hr)
  · exact runMax_eq_of_le (fun r hr => ts_le_runMax hr)

/-- **C8.**  `upsert_record_item_prices` rejects a currency code whose
length is not exactly 3 before attempting storage: it returns `False` and
issues no SQL statement for that row, whatever the storage oracle would
have answered. -/
theorem C8_currency_validation (o : SqlOutcome) (p : ItemPriceParams)
    (h : p.currency.length ≠ 3) :
    DBConnector.upsert_record_item_prices o p = (Except.ok (some false), []) := by
  unfold DBConnector.upsert_record_item_prices
  rw [if_pos h]

/-- Witness for C8: the two-character currency code of `rowBadCurrency`
is rejected with no SQL issued. -/
theorem C8_currency_validation_witness :
    rowBadCurrency.currency.length ≠ 3 ∧
    DBConnector.upsert_record_item_prices SqlOutcome.success rowBadCurrency =
      (Except.ok (some false), []) :=
  ⟨by decide, C8_currency_validation SqlOutcome.success rowBadCurrency (by decide)⟩

/-- **C9.**  `upsert_record_item_prices` returns normally on every input
and every storage outcome — the invalid-currency case returns `False`,
a driver error is swallowed inside `_execute_query`, and any other
exception is caught by the upsert itself — so the ingestion loop can
never observe a row-level storage failure as an exception. -/
theorem C9_upsert_never_raises (o : SqlOutcome) (p : ItemPriceParams) :
    (∃ v, (DBConnector.upsert_record_item_prices o p).fst = Except.ok v) ∧
    _execute_query SqlOutcome.pgError = Except.ok () :=
  ⟨upsert_fst_ok o p, rfl⟩

/-- **C10.**  `CsvProcessor.__init__` ignores its
`related_batch_dir_to_script` argument: whatever is passed, the batch
directory is the fixed path relative to the module directory and the
watermark seed is the epoch, so two processors constructed with different
values of the argument are identical. -/
theorem C10_batch_dir_ignored (script_dir a b : String) :
    CsvProcessor.mk_init script_dir a = CsvProcessor.mk_init script_dir b ∧
    (CsvProcessor.mk_init script_dir a).batch_data_dir =
      script_dir ++ "/" ++ "../batch_data" ∧
    (CsvProcessor.mk_init script_dir a).check_point = 0 :=
  ⟨rfl, rfl, rfl⟩
